import Mathlib

/-!
Verification of the `limbo_extension` plugin ABI layer
(`src/limbo_extension/src/lib.rs`), a shallow embedding in Lean 4.

Modelling conventions:
* Raw pointers (`*const T`, `*mut c_void`) are modelled as `Nat`, with `0`
  playing the role of the null pointer.
* `i64` is modelled as `Int`; where a claim quantifies over representable
  `i64` values the range bound appears as a hypothesis.
* `f64` is modelled by its 64-bit pattern as a `Nat`: the source never
  performs floating-point arithmetic on the field, it only stores and
  copies the bits, so the bit-pattern model is exact.
* Byte strings are `List Nat` (each entry a byte value).
* Memory that the trampoline reads through a raw pointer is an explicit
  oracle function; the trampoline also returns the list of addresses it
  read, so "does not touch the array" is provable, not just observational.
* A Rust panic (an `unwrap` failure) is modelled by `Option.none`.
-/

/-- Rust `pub type ResultCode = i32`. -/
abbrev ResultCode := Int

/-- Rust `pub const RESULT_OK: ResultCode = 0`. -/
def RESULT_OK : ResultCode := 0

/-- Rust `pub const RESULT_ERROR: ResultCode = 1`. -/
def RESULT_ERROR : ResultCode := 1

/-- The repr(C) `ValueType` enum of the source. -/
inductive ValueType where
  | Null
  | Integer
  | Float
  | Text
  | Blob
deriving DecidableEq

/-- Struct `TextValue \x7b text: *const c_char, len: usize \x7d`; the pointer is
a `Nat` (with `0` for null). -/
structure TextValue where
  text : Nat
  len : Nat
deriving DecidableEq

/-- Struct `Blob \x7b data: *const u8, size: usize \x7d`. -/
structure Blob where
  data : Nat
  size : Nat
deriving DecidableEq

/-- The ABI `Value` struct. `float` holds the 64-bit pattern of the `f64`
field (the source only stores and copies it). -/
structure Value where
  value_type : ValueType
  integer : Int
  float : Nat
  text : TextValue
  blob : Blob
deriving DecidableEq

/-- Constructor `TextValue::null()`. -/
def TextValue.null : TextValue := { text := 0, len := 0 }

/-- Constructor `TextValue::new(text, len)`. -/
def TextValue.new (text : Nat) (len : Nat) : TextValue := { text := text, len := len }

/-- Method `TextValue::is_null(&self)`. -/
def TextValue.is_null (tv : TextValue) : Bool := tv.text = 0

/-- Constructor `Blob::null()`. -/
def Blob.null : Blob := { data := 0, size := 0 }

/-- Constructor `Blob::new(data, size)`. -/
def Blob.new (data : Nat) (size : Nat) : Blob := { data := data, size := size }

/-- Constructor `Value::null()`. -/
def Value.null : Value :=
  { value_type := ValueType.Null
    integer := 0
    float := 0
    text := TextValue.null
    blob := Blob.null }

/-- Constructor `Value::from_integer(value: i64)`. -/
def Value.from_integer (value : Int) : Value :=
  { value_type := ValueType.Integer
    integer := value
    float := 0
    text := TextValue.null
    blob := Blob.null }

/-- Constructor `Value::from_float(value: f64)`; `value` is the f64's bit pattern. -/
def Value.from_float (value : Nat) : Value :=
  { value_type := ValueType.Float
    integer := 0
    float := value
    text := TextValue.null
    blob := Blob.null }

/-- Constructor `Value::from_blob(value: &[u8])`: the borrowed slice is modelled by the
address of its first byte and its length. -/
def Value.from_blob (ptr : Nat) (len : Nat) : Value :=
  { value_type := ValueType.Blob
    integer := 0
    float := 0
    text := TextValue.null
    blob := Blob.new ptr len }

/-- Model of `std::ffi::CString::new(bytes)`: fails (the source then panics via
`unwrap`) exactly when the input holds a nul byte, otherwise yields the
bytes with a nul terminator appended. -/
def cStringNew (bytes : List Nat) : Option (List Nat) :=
  if bytes.contains 0 then none else some (bytes ++ [0])

/-- Constructor `Value::from_text(value: String)`. The Rust `String` is its UTF-8 byte
list `s`; `p` is the (nonzero) address of the `CString` buffer the call
allocates and leaks via `mem::forget`. `CString::new(&*value).unwrap()`
panics (`none`) when `s` holds a nul byte; otherwise the text pointer is
`p` and the length is `value.len()`, the byte length of `s`. -/
def Value.from_text (s : List Nat) (p : Nat) : Option Value :=
  match cStringNew s with
  | none => none
  | some _ =>
    some
      { value_type := ValueType.Text
        integer := 0
        float := 0
        text := TextValue.new p s.length
        blob := Blob.null }

/-- C6 -- `Value::from_integer(x)` stores `x` in `integer` with kind
`Integer`, for every representable `i64` `x`, and `Value::from_float(x)`
stores `x` in `float` with kind `Float`, for every `f64` bit pattern `x`. -/
theorem from_integer_from_float_round_trip (x : Int) (b : Nat)
    (hx : -(2 ^ 63) ≤ x ∧ x < 2 ^ 63) (hb : b < 2 ^ 64) :
    (Value.from_integer x).integer = x ∧
      (Value.from_integer x).value_type = ValueType.Integer ∧
      (Value.from_float b).float = b ∧
      (Value.from_float b).value_type = ValueType.Float := by
  exact ⟨rfl, rfl, rfl, rfl⟩

/-- Witness for C6 at `x = -5`, `b = 7`. -/
theorem from_integer_from_float_round_trip_witness :
    (Value.from_integer (-5)).integer = -5 ∧
      (Value.from_integer (-5)).value_type = ValueType.Integer ∧
      (Value.from_float 7).float = 7 ∧
      (Value.from_float 7).value_type = ValueType.Float :=
  from_integer_from_float_round_trip (-5) 7 (by decide) (by decide)

/-- C7 -- `Value::null()` has kind `Null`, a null text pointer with length
0, a null blob pointer with size 0, and zero integer and float fields. -/
theorem value_null_fields :
    Value.null.value_type = ValueType.Null ∧
      Value.null.text.text = 0 ∧ Value.null.text.len = 0 ∧
      Value.null.blob.data = 0 ∧ Value.null.blob.size = 0 ∧
      Value.null.integer = 0 ∧ Value.null.float = 0 := by
  exact ⟨rfl, rfl, rfl, rfl, rfl, rfl, rfl⟩

/-!
The trampoline generated by `declare_scalar_functions!`. Memory behind the
raw `argv` pointer is an explicit oracle: `readHandle a` is the handle
pointer stored at address `a` of the handle array, and `readValue q` is
the `Value` stored at address `q`. The trampoline returns the author
body's `Value` together with the list of every address it read, in order:
handle-array slots first appear as they are read, and each non-null handle
is followed by the dereference of the pointed-to `Value`.
-/

/-- Slice the trampoline builds for the author body in the `argc > 0`,
non-null `argv` branch: for each `i < argc`, read the handle at slot
`argv + i`; a null handle becomes `Value::null()`, a non-null handle is
dereferenced and the pointed-to `Value` copied by value (`std::ptr::read`:
a bitwise copy, so text and blob pointer fields are copied as-is). -/
def marshalArgs (argc : Int) (argv : Nat)
    (readHandle : Nat → Nat) (readValue : Nat → Value) : List Value :=
  (List.range argc.toNat).map fun i =>
    let valPtr := readHandle (argv + i)
    if valPtr = 0 then Value.null else readValue valPtr

/-- Addresses the `argc > 0`, non-null `argv` branch reads: every
handle-array slot, each followed by the pointed-to `Value` address when the
handle is non-null. -/
def marshalReads (argc : Int) (argv : Nat) (readHandle : Nat → Nat) : List Nat :=
  (List.range argc.toNat).flatMap fun i =>
    let slot := argv + i
    let valPtr := readHandle slot
    if valPtr = 0 then [slot] else [slot, valPtr]

/-- The extern "C" trampoline `declare_scalar_functions!` generates around
an author body, with declared inclusive arity bounds: out-of-range `argc`
returns `Value::null()` without reading anything (the `println!` goes to
stdout, not to the argument array); `argc == 0` or null `argv` passes the
empty slice; otherwise the body gets `marshalArgs`. The second component
is the list of addresses read. -/
def scalarTrampoline (minArgs maxArgs : Int) (body : List Value → Value)
    (argc : Int) (argv : Nat)
    (readHandle : Nat → Nat) (readValue : Nat → Value) : Value × List Nat :=
  if ¬ (minArgs ≤ argc ∧ argc ≤ maxArgs) then
    (Value.null, [])
  else if argc = 0 ∨ argv = 0 then
    (body [], [])
  else
    (body (marshalArgs argc argv readHandle readValue),
      marshalReads argc argv readHandle)

/-- Sample author body used by witnesses: first argument, or `Integer 9`
when the slice is empty. -/
def bodyHeadOrNine : List Value → Value
  | [] => Value.from_integer 9
  | v :: _ => v

/-- Sample handle-array memory used by witnesses. -/
def memHandle : Nat → Nat :=
  fun a => if a = 100 then 7 else if a = 101 then 0 else 3

/-- Sample value memory used by witnesses. -/
def memValue : Nat → Value :=
  fun q => Value.from_integer (Int.ofNat q)

/-- C1 -- for every declared arity range and every `argc` outside it, the
trampoline returns `Value::null()` and reads no address at all, whatever
`argv` and whatever the memory holds. -/
theorem trampoline_out_of_range_null (minArgs maxArgs argc : Int) (argv : Nat)
    (body : List Value → Value) (readHandle : Nat → Nat) (readValue : Nat → Value)
    (h : ¬ (minArgs ≤ argc ∧ argc ≤ maxArgs)) :
    scalarTrampoline minArgs maxArgs body argc argv readHandle readValue =
      (Value.null, []) := by
  simp [scalarTrampoline, h]

/-- Witness for C1: arity `[1,1]`, `argc = 2`, dangling `argv = 12345`. -/
theorem trampoline_out_of_range_null_witness :
    scalarTrampoline 1 1 bodyHeadOrNine 2 12345 memHandle memValue =
      (Value.null, []) :=
  trampoline_out_of_range_null 1 1 2 12345 bodyHeadOrNine memHandle memValue
    (by decide)

/-- C3 -- whenever the declared arity range admits the call and `argc = 0`
or `argv` is null, the author body receives the empty slice, nothing is
read, and the body's result is returned (no error path exists). -/
theorem trampoline_no_args_empty_slice (minArgs maxArgs argc : Int) (argv : Nat)
    (body : List Value → Value) (readHandle : Nat → Nat) (readValue : Nat → Value)
    (hlo : minArgs ≤ argc) (hhi : argc ≤ maxArgs) (h0 : argc = 0 ∨ argv = 0) :
    scalarTrampoline minArgs maxArgs body argc argv readHandle readValue =
      (body [], []) := by
  simp [scalarTrampoline, hlo, hhi, h0]

/-- Witness for C3: arity `[0,2]`, `argc = 0`, non-null `argv = 55`; the
empty slice makes `bodyHeadOrNine` return `Integer 9`. -/
theorem trampoline_no_args_empty_slice_witness :
    scalarTrampoline 0 2 bodyHeadOrNine 0 55 memHandle memValue =
      (bodyHeadOrNine [], []) :=
  trampoline_no_args_empty_slice 0 2 0 55 bodyHeadOrNine memHandle memValue
    (by decide) (by decide) (Or.inl rfl)

/-- C2 -- for in-range `argc > 0` and non-null `argv`, the trampoline
passes `marshalArgs` to the body; that slice has exactly `argc` elements,
and element `i` is `Value::null()` when the handle at slot `i` is null and
otherwise a bitwise copy of the pointed-to `Value` (the whole `Value`,
text and blob pointer fields included, exactly as stored). -/
theorem trampoline_in_range_marshals (minArgs maxArgs argc : Int) (argv : Nat)
    (body : List Value → Value) (readHandle : Nat → Nat) (readValue : Nat → Value)
    (hlo : minArgs ≤ argc) (hhi : argc ≤ maxArgs) (hpos : 0 < argc)
    (hargv : argv ≠ 0) :
    scalarTrampoline minArgs maxArgs body argc argv readHandle readValue =
      (body (marshalArgs argc argv readHandle readValue),
        marshalReads argc argv readHandle) ∧
    (marshalArgs argc argv readHandle readValue).length = argc.toNat ∧
    ∀ i (hi : i < (marshalArgs argc argv readHandle readValue).length),
      (marshalArgs argc argv readHandle readValue).get ⟨i, hi⟩ =
        if readHandle (argv + i) = 0 then Value.null
        else readValue (readHandle (argv + i)) := by
  refine ⟨?_, ?_, ?_⟩
  · have hne : ¬ (argc = 0) := by omega
    simp [scalarTrampoline, hlo, hhi, hne, hargv]
  · simp [marshalArgs]
  · intro i hi
    simp only [marshalArgs, List.get_eq_getElem, List.getElem_map, List.getElem_range]

/-- Witness for C2: arity `[1,3]`, `argc = 2`, `argv = 100`; slot 100
holds handle 7 (so element 0 is the `Value` at address 7, `Integer 7`) and
slot 101 holds the null handle (so element 1 is `Value::null()`). -/
theorem trampoline_in_range_marshals_witness :
    (scalarTrampoline 1 3 bodyHeadOrNine 2 100 memHandle memValue =
      (bodyHeadOrNine (marshalArgs 2 100 memHandle memValue),
        marshalReads 2 100 memHandle) ∧
    (marshalArgs 2 100 memHandle memValue).length = (2 : Int).toNat ∧
    ∀ i (hi : i < (marshalArgs 2 100 memHandle memValue).length),
      (marshalArgs 2 100 memHandle memValue).get ⟨i, hi⟩ =
        if memHandle (100 + i) = 0 then Value.null
        else memValue (memHandle (100 + i))) :=
  trampoline_in_range_marshals 1 3 2 100 bodyHeadOrNine memHandle memValue
    (by decide) (by decide) (by decide) (by decide)

/-!
The entry point generated by `register_extension!` and the expansion of
`register_scalar_functions!`. A `ScalarFunction` pointer is identified by a
`Nat`; names are byte lists. The host callback in the `ExtensionApi` struct
returns a `ResultCode`, which the generated code discards (line 48 of the
source: the call's result is not bound), so the model records every call
made together with its arguments; a panic of `CString::new(..).unwrap()`
stops execution, modelled by a `false` completion flag and a missing
return code.
-/

/-- Struct `ExtensionApi`: the opaque context pointer and the host's
`register_scalar_function` callback, taking the context, the
null-terminated name bytes and the function pointer, and returning a
status code. -/
structure ExtensionApi where
  ctx : Nat
  register_scalar_function : Nat → List Nat → Nat → ResultCode

/-- One performed call to the host's `register_scalar_function`, with the
arguments it received. -/
structure RegisteredCall where
  ctx : Nat
  name : List Nat
  func : Nat
deriving DecidableEq

/-- Expansion of `register_scalar_functions! \x7b api, name => func, .. \x7d`:
for each declared pair in order, `CString::new(name).unwrap()` then the
host callback with `(*api).ctx`, the encoded name and the function
pointer, its `ResultCode` discarded. Returns the calls performed in order
and whether the expansion ran to completion (`false` when an `unwrap`
panicked; calls after the panic never happen). -/
def registerScalarFunctions (api : ExtensionApi) :
    List (List Nat × Nat) → List RegisteredCall × Bool
  | [] => ([], true)
  | (fname, fptr) :: rest =>
    match cStringNew fname with
    | none => ([], false)
    | some cname =>
      let _ := api.register_scalar_function api.ctx cname fptr
      let r := registerScalarFunctions api rest
      ({ ctx := api.ctx, name := cname, func := fptr } :: r.1, r.2)

/-- The generated `pub unsafe extern "C" fn register_extension(api)`:
null `api` returns `RESULT_ERROR` at once with no host call; otherwise it
runs the scalar registrations and returns `RESULT_OK`. The first component
is the returned status (`none` when a name's `unwrap` panicked, so the
function never returned), the second the host calls performed. -/
def register_extension (api : Option ExtensionApi)
    (scalars : List (List Nat × Nat)) : Option ResultCode × List RegisteredCall :=
  match api with
  | none => (some RESULT_ERROR, [])
  | some a =>
    let r := registerScalarFunctions a scalars
    ((if r.2 then some RESULT_OK else none), r.1)

/-- C4 -- calling the generated entry point with a null `ExtensionApi`
pointer returns `RESULT_ERROR` immediately and performs zero host calls,
whatever scalars were declared. -/
theorem register_extension_null_api (scalars : List (List Nat × Nat)) :
    register_extension none scalars = (some RESULT_ERROR, []) := rfl

/-- Helper: with nul-free names the expansion completes and calls the host
once per declared pair, in order, with the context pointer, the
null-terminated name and the function pointer. -/
theorem registerScalarFunctions_nul_free (api : ExtensionApi)
    (scalars : List (List Nat × Nat))
    (h : ∀ p ∈ scalars, p.1.contains 0 = false) :
    registerScalarFunctions api scalars =
      (scalars.map fun p =>
        { ctx := api.ctx, name := p.1 ++ [0], func := p.2 }, true) := by
  induction scalars with
  | nil => rfl
  | cons hd tl ih =>
    have hhd : hd.1.contains 0 = false := h hd (List.mem_cons_self hd tl)
    have htl : ∀ p ∈ tl, p.1.contains 0 = false :=
      fun p hp => h p (List.mem_cons_of_mem hd hp)
    cases hd with
    | mk fname fptr =>
      simp only [registerScalarFunctions, cStringNew, hhd, Bool.false_eq_true,
        if_false, ih htl, List.map_cons]

/-- C5 -- with a valid (non-null) api and N declared pairs whose names are
nul-free, the entry point calls the host exactly N times, in declaration
order, each time with the context pointer, the null-terminated encoding of
the name, and the function pointer, then returns `RESULT_OK`. The host
callback is universally quantified and its status discarded, so the calls
happen in full even when the host reports non-OK codes: nothing is rolled
back. -/
theorem register_extension_registers_all (a : ExtensionApi)
    (scalars : List (List Nat × Nat))
    (h : ∀ p ∈ scalars, p.1.contains 0 = false) :
    register_extension (some a) scalars =
      (some RESULT_OK, scalars.map fun p =>
        { ctx := a.ctx, name := p.1 ++ [0], func := p.2 }) ∧
    (register_extension (some a) scalars).2.length = scalars.length := by
  have hreg := registerScalarFunctions_nul_free a scalars h
  constructor
  · simp [register_extension, hreg]
  · simp [register_extension, hreg]

/-- Sample api for witnesses: context pointer 42 and a host callback that
always reports `RESULT_ERROR`, exhibiting that discarded statuses do not
stop later registrations. -/
def apiErr : ExtensionApi :=
  { ctx := 42, register_scalar_function := fun _ _ _ => RESULT_ERROR }

/-- Witness for C5: two pairs, names `hi` and `yo`, against `apiErr`; both
calls happen, in order, and the entry still returns `RESULT_OK`. -/
theorem register_extension_registers_all_witness :
    (register_extension (some apiErr) [([104, 105], 11), ([121, 111], 22)] =
      (some RESULT_OK, [([104, 105], 11), ([121, 111], 22)].map fun p =>
        { ctx := apiErr.ctx, name := p.1 ++ [0], func := p.2 }) ∧
    (register_extension (some apiErr)
        [([104, 105], 11), ([121, 111], 22)]).2.length =
      ([([104, 105], 11), ([121, 111], 22)] : List (List Nat × Nat)).length) :=
  register_extension_registers_all apiErr [([104, 105], 11), ([121, 111], 22)]
    (by decide)

/-- Helper: the expansion panics at the first declared name holding a nul
byte, after performing exactly the calls for the nul-free prefix. -/
theorem registerScalarFunctions_panics_at_nul (api : ExtensionApi)
    (pre post : List (List Nat × Nat)) (n : List Nat) (f : Nat)
    (hpre : ∀ p ∈ pre, p.1.contains 0 = false) (hn : n.contains 0 = true) :
    registerScalarFunctions api (pre ++ (n, f) :: post) =
      (pre.map fun p => { ctx := api.ctx, name := p.1 ++ [0], func := p.2 },
        false) := by
  induction pre with
  | nil =>
    have hmem : 0 ∈ n := by simpa using hn
    simp [registerScalarFunctions, cStringNew, hmem]
  | cons hd tl ih =>
    have hhd : hd.1.contains 0 = false := hpre hd (List.mem_cons_self hd tl)
    have htl : ∀ p ∈ tl, p.1.contains 0 = false :=
      fun p hp => hpre p (List.mem_cons_of_mem hd hp)
    cases hd with
    | mk fname fptr =>
      simp only [List.cons_append, registerScalarFunctions, cStringNew, hhd,
        Bool.false_eq_true, if_false, List.append_eq, ih htl, List.map_cons]

/-- C9 -- if a declared name holds an embedded nul byte (first such entry,
after a nul-free prefix), `CString::new(..).unwrap()` panics: the entry
point never returns a status, the host calls performed are exactly those
for the prefix, and no performed call carries that entry's encoded name. -/
theorem register_extension_embedded_nul (a : ExtensionApi)
    (pre post : List (List Nat × Nat)) (n : List Nat) (f : Nat)
    (hpre : ∀ p ∈ pre, p.1.contains 0 = false) (hn : n.contains 0 = true) :
    register_extension (some a) (pre ++ (n, f) :: post) =
      (none, pre.map fun p =>
        { ctx := a.ctx, name := p.1 ++ [0], func := p.2 }) ∧
    ∀ c ∈ (register_extension (some a) (pre ++ (n, f) :: post)).2,
      c.name ≠ n ++ [0] := by
  have hreg := registerScalarFunctions_panics_at_nul a pre post n f hpre hn
  have hmain : register_extension (some a) (pre ++ (n, f) :: post) =
      (none, pre.map fun p =>
        { ctx := a.ctx, name := p.1 ++ [0], func := p.2 }) := by
    simp [register_extension, hreg]
  refine ⟨hmain, ?_⟩
  intro c hc
  rw [hmain] at hc
  simp only [List.mem_map] at hc
  obtain ⟨p, hp, hcp⟩ := hc
  intro hname
  have hpn : p.1 ++ [0] = n ++ [0] := by rw [← hname, ← hcp]
  have hp1n : p.1 = n := List.append_cancel_right hpn
  have hfree := hpre p hp
  rw [hp1n, hn] at hfree
  exact Bool.noConfusion hfree

/-!
Display of a `TextValue` (the `impl std::fmt::Display for TextValue`).
The UTF-8 validity check mirrors `std::str::from_utf8`: ASCII bytes,
two-byte sequences `C2..DF` + continuation, three-byte sequences with the
`E0`/`ED` overlong and surrogate exclusions, four-byte sequences with the
`F0`/`F4` range exclusions.
-/

/-- Continuation byte test: `80..BF`. -/
def isUtf8Cont (b : Nat) : Bool :=
  0x80 ≤ b ∧ b ≤ 0xBF

/-- Validity of a byte list as UTF-8, exactly the acceptance of Rust's
`std::str::from_utf8`. -/
def isValidUtf8 : List Nat → Bool
  | [] => true
  | b :: rest =>
    if b ≤ 0x7F then isValidUtf8 rest
    else if 0xC2 ≤ b ∧ b ≤ 0xDF then
      match rest with
      | c :: rest2 => isUtf8Cont c && isValidUtf8 rest2
      | [] => false
    else if b = 0xE0 then
      match rest with
      | c1 :: c2 :: rest2 =>
        (decide (0xA0 ≤ c1) && decide (c1 ≤ 0xBF)) && isUtf8Cont c2 &&
          isValidUtf8 rest2
      | _ => false
    else if (0xE1 ≤ b ∧ b ≤ 0xEC) ∨ b = 0xEE ∨ b = 0xEF then
      match rest with
      | c1 :: c2 :: rest2 => isUtf8Cont c1 && isUtf8Cont c2 && isValidUtf8 rest2
      | _ => false
    else if b = 0xED then
      match rest with
      | c1 :: c2 :: rest2 =>
        (decide (0x80 ≤ c1) && decide (c1 ≤ 0x9F)) && isUtf8Cont c2 &&
          isValidUtf8 rest2
      | _ => false
    else if b = 0xF0 then
      match rest with
      | c1 :: c2 :: c3 :: rest2 =>
        (decide (0x90 ≤ c1) && decide (c1 ≤ 0xBF)) && isUtf8Cont c2 &&
          isUtf8Cont c3 && isValidUtf8 rest2
      | _ => false
    else if 0xF1 ≤ b ∧ b ≤ 0xF3 then
      match rest with
      | c1 :: c2 :: c3 :: rest2 =>
        isUtf8Cont c1 && isUtf8Cont c2 && isUtf8Cont c3 && isValidUtf8 rest2
      | _ => false
    else if b = 0xF4 then
      match rest with
      | c1 :: c2 :: c3 :: rest2 =>
        (decide (0x80 ≤ c1) && decide (c1 ≤ 0x8F)) && isUtf8Cont c2 &&
          isUtf8Cont c3 && isValidUtf8 rest2
      | _ => false
    else false

/-- Outcome of `write!` in the `Display` impl: the `<null>` marker for a
null text pointer, the bytes rendered as text on `Ok(s)`, and the
`<invalid UTF-8: ..>` marker on `Err(e)`. The three constructors are
distinct, so the invalid marker is distinguishable from any rendered
text. -/
inductive TextRendering where
  | nullText
  | utf8 (bytes : List Nat)
  | invalidUtf8
deriving DecidableEq

/-- Method `fmt` of `impl Display for TextValue`: null pointer renders the
null marker; otherwise `len` bytes are read from the pointer (`mem` is the
byte at each address) and `str::from_utf8` decides between rendering them
and rendering the invalid-encoding marker. Total: no panic on any input. -/
def TextValue.fmt (tv : TextValue) (mem : Nat → Nat) : TextRendering :=
  if tv.text = 0 then TextRendering.nullText
  else
    let slice := (List.range tv.len).map fun i => mem (tv.text + i)
    if isValidUtf8 slice then TextRendering.utf8 slice
    else TextRendering.invalidUtf8

/-- Counterexample for C8 as stated: the one-byte string `"\x00"` is valid
UTF-8, yet `Value::from_text` panics on it (`CString::new(..).unwrap()`),
so no `TextValue` is produced and nothing renders as that string. -/
theorem from_text_fmt_nul_cex :
    isValidUtf8 [0] = true ∧ Value.from_text [0] 1 = none := by
  exact ⟨rfl, rfl⟩

/-- C8 (amended: restricted to nul-free strings, which are the only ones
`from_text` survives) -- for every nul-free valid-UTF-8 `s`, the
`TextValue` produced by `from_text` renders under `Display` as exactly the
bytes of `s` (no loss); and every non-null text payload whose bytes are
invalid UTF-8 renders as the invalid-encoding marker, which is distinct
from every rendered string and from the null marker, with no panic
(`TextValue.fmt` is total). -/
theorem from_text_fmt_lossless_or_explicit :
    (∀ (s : List Nat) (p : Nat) (mem : Nat → Nat),
      isValidUtf8 s = true → s.contains 0 = false → p ≠ 0 →
      (∀ i (hi : i < s.length), mem (p + i) = s.get ⟨i, hi⟩) →
      ∃ v, Value.from_text s p = some v ∧
        v.text.fmt mem = TextRendering.utf8 s) ∧
    (∀ (tv : TextValue) (mem : Nat → Nat),
      tv.text ≠ 0 →
      isValidUtf8 ((List.range tv.len).map fun i => mem (tv.text + i)) = false →
      tv.fmt mem = TextRendering.invalidUtf8 ∧
        ∀ bytes, TextRendering.invalidUtf8 ≠ TextRendering.utf8 bytes ∧
          TextRendering.invalidUtf8 ≠ TextRendering.nullText) := by
  constructor
  · intro s p mem hval hfree hp hmem
    have hfm : 0 ∉ s := by simpa using hfree
    refine ⟨{ value_type := ValueType.Text, integer := 0, float := 0,
              text := TextValue.new p s.length, blob := Blob.null },
            by simp [Value.from_text, cStringNew, hfm], ?_⟩
    have hslice : ((List.range s.length).map fun i => mem (p + i)) = s := by
      apply List.ext_get
      · simp
      · intro n h1 h2
        simp only [List.get_eq_getElem, List.getElem_map, List.getElem_range]
        exact hmem n h2
    simp [TextValue.fmt, TextValue.new, hp, hslice, hval]
  · intro tv mem htext hinv
    refine ⟨by simp [TextValue.fmt, htext, hinv], ?_⟩
    intro bytes
    exact ⟨by simp, by simp⟩

/-- Sample byte memory for the display witness: the bytes of `"hi"` at
addresses 10 and 11, a lone continuation byte `0xBF` at address 20. -/
def memBytes : Nat → Nat :=
  fun a => if a = 10 then 104 else if a = 11 then 105
    else if a = 20 then 0xBF else 0

/-- Witness for C8 at `s = "hi"` stored at address 10 and an invalid
one-byte payload `0xBF` at address 20. -/
theorem from_text_fmt_lossless_or_explicit_witness :
    (∃ v, Value.from_text [104, 105] 10 = some v ∧
      v.text.fmt memBytes = TextRendering.utf8 [104, 105]) ∧
    TextValue.fmt (TextValue.new 20 1) memBytes = TextRendering.invalidUtf8 :=
  ⟨from_text_fmt_lossless_or_explicit.1 [104, 105] 10 memBytes
      (by decide) (by decide) (by decide) (by decide),
    (from_text_fmt_lossless_or_explicit.2 (TextValue.new 20 1) memBytes
      (by decide) (by decide)).1⟩

/-- C10 -- `Value::from_text` is not total over Rust strings: it panics
(returns no `Value`) exactly when the string holds a nul byte, and on
every nul-free string it yields a `Value` whose text length is the byte
length of the input. -/
theorem from_text_totality (s : List Nat) (p : Nat)
    (hval : isValidUtf8 s = true) :
    (Value.from_text s p = none ↔ s.contains 0 = true) ∧
    (s.contains 0 = false →
      ∃ v, Value.from_text s p = some v ∧ v.text.len = s.length) := by
  constructor
  · by_cases h : 0 ∈ s
    · simp [Value.from_text, cStringNew, h]
    · simp [Value.from_text, cStringNew, h]
  · intro h
    have hm : 0 ∉ s := by simpa using h
    exact ⟨{ value_type := ValueType.Text, integer := 0, float := 0,
             text := TextValue.new p s.length, blob := Blob.null },
           by simp [Value.from_text, cStringNew, hm], rfl⟩

/-- Witness for C10 at the nul-free string `"a"` and a nul-holding string
is covered by `[0]` inside the iff: instantiated at `s = "a"`, `p = 5`. -/
theorem from_text_totality_witness :
    (Value.from_text [97] 5 = none ↔ ([97] : List Nat).contains 0 = true) ∧
    (([97] : List Nat).contains 0 = false →
      ∃ v, Value.from_text [97] 5 = some v ∧ v.text.len = ([97] : List Nat).length) :=
  from_text_totality [97] 5 (by decide)

/-- Witness for C9: prefix `[("a", 1)]`, bad entry `("b\x00c", 2)`, suffix
`[("d", 3)]`; only the prefix call happens and no status is returned. -/
theorem register_extension_embedded_nul_witness :
    (register_extension (some apiErr)
        ([([97], 1)] ++ ([98, 0, 99], 2) :: [([100], 3)]) =
      (none, [([97], 1)].map fun p =>
        { ctx := apiErr.ctx, name := p.1 ++ [0], func := p.2 }) ∧
    ∀ c ∈ (register_extension (some apiErr)
        ([([97], 1)] ++ ([98, 0, 99], 2) :: [([100], 3)])).2,
      c.name ≠ [98, 0, 99] ++ [0]) :=
  register_extension_embedded_nul apiErr [([97], 1)] [([100], 3)] [98, 0, 99] 2
    (by decide) (by decide)
